import Mathlib

/-!
Verification development for the mvTCR mixture-of-experts (MoE) variational
autoencoder repository.  The Python sources are shallowly embedded:

* tensors are lists of rationals (`Mat` is a batch of row vectors, `Mat3` a
  batch of token-logit matrices); the elementwise torch operations used by
  the MoE module are spelled out as `zipWith` style functions;
* neural submodules (the transformer chain encoders/decoders, the MLP
  blocks, the conditional embedding table) live outside the repository
  under verification, so they appear as opaque function fields of the
  `MoENet` structure; the random draw of `reparameterize` is passed in
  explicitly as the tensor `eps`;
* the floating point `torch.exp` is abstracted by the function field
  `fexp` (only the data flow of `reparameterize`, never a numeric value of
  `exp`, matters to the claims below);
* the pandas/AnnData container of `utils.aa_encoding` is embedded as an
  association-list store (`Adata`), and Python exceptions become values of
  an explicit error type in `Except`.
-/

namespace MvTCR

/-! ## Tensor primitives (elementwise torch operations) -/

/-- Batch of vectors: shape [batch, dim]. -/
abbrev Mat := List (List ℚ)

/-- Batch of token-logit matrices: shape [batch, seq, vocab]. -/
abbrev Mat3 := List (List (List ℚ))

/-- Elementwise tensor addition (torch `+`). -/
def matAdd (a b : Mat) : Mat := List.zipWith (List.zipWith (· + ·)) a b

/-- Elementwise tensor product (torch `*` between tensors). -/
def matHMul (a b : Mat) : Mat := List.zipWith (List.zipWith (· * ·)) a b

/-- Scalar times tensor (torch `c * t`). -/
def matSMul (c : ℚ) (a : Mat) : Mat := a.map (List.map (c * ·))

/-- Concatenation along dim 1 (torch.cat dim=1 on [batch, d] tensors). -/
def matCat (a b : Mat) : Mat := List.zipWith (· ++ ·) a b

/-- Concatenation along dim 1 of [batch, seq, vocab] tensors. -/
def mat3Cat (a b : Mat3) : Mat3 := List.zipWith (· ++ ·) a b

/-- Size of axis 1 of a rectangular [batch, d] tensor (torch shape[1]). -/
def shape1 (m : List (List α)) : ℕ := (m.headD []).length

/-- Columns [0, k) of a [batch, d] tensor (torch t[:, :k]). -/
def takeCols (k : ℕ) (m : Mat) : Mat := m.map (List.take k)

/-- Columns [k, d) of a [batch, d] tensor (torch t[:, k:]). -/
def dropCols (k : ℕ) (m : Mat) : Mat := m.map (List.drop k)

/-- Elementwise application of an abstract exp function (torch.exp). -/
def matExp (f : ℚ → ℚ) (m : Mat) : Mat := m.map (List.map f)

/-! ## MoEModelTorch (tcr_embedding/models/mixture_modules/moe.py)

The torch submodules instantiated in `MoEModelTorch.__init__` are defined in
files outside this repository slice (transformer.py, mlp.py, ...), so they
are opaque function fields here.  Token tensors are `List (List ℕ)` (batch of
id sequences) and per-chain lengths are a [batch, 2] tensor `List (ℕ × ℕ)`.
-/

structure MoENet where
  alpha_encoder : List (List ℕ) → List ℕ → Mat
  beta_encoder : List (List ℕ) → List ℕ → Mat
  rna_encoder : Mat → Mat
  rna_vae_encoder : Mat → Mat
  tcr_vae_encoder : Mat → Mat
  rna_vae_decoder : Mat → Mat
  tcr_vae_decoder : Mat → Mat
  rna_decoder : Mat → Mat
  alpha_decoder : Mat → List (List ℕ) → Mat3
  beta_decoder : Mat → List (List ℕ) → Mat3
  cond_emb : List ℕ → Mat
  cond_input : Bool
  fexp : ℚ → ℚ

/-- Embedding vector of the conditional batch; `[]` is never used because the
source guards every use by `conditional is not None`. -/
def condVec (m : MoENet) (conditional : Option (List ℕ)) : Mat :=
  match conditional with
  | some c => m.cond_emb c
  | none => []

/-- MoEModelTorch.reparameterize: z = mu + eps * exp(0.5 * log_var), with the
standard-normal draw `eps` made explicit. -/
def reparameterize (m : MoENet) (mu log_var eps : Mat) : Mat :=
  matAdd mu (matHMul eps (matExp m.fexp (matSMul (1/2) log_var)))

/-- Result record of MoEModelTorch.forward (the Python function returns the
tuple z, mu, logvar, rna_pred, tcr_pred). -/
structure ForwardOut where
  z : List Mat
  mu : List Mat
  logvar : List Mat
  rna_pred : List Mat
  tcr_pred : List Mat3
  deriving DecidableEq

/-- MoEModelTorch.forward, lines 57-121 of moe.py, with the two
standard-normal draws of `reparameterize` passed in as `eps_rna, eps_tcr`. -/
def forward (m : MoENet) (rna : Mat) (tcr : List (List ℕ)) (tcr_len : List (ℕ × ℕ))
    (conditional : Option (List ℕ)) (eps_rna eps_tcr : Mat) : ForwardOut :=
  let cond_emb_vec := condVec m conditional
  -- Encode TCR
  let alpha_seq := tcr.map (List.take (shape1 tcr / 2))
  let alpha_len := tcr_len.map Prod.fst
  let beta_seq := tcr.map (List.drop (shape1 tcr / 2))
  let beta_len := tcr_len.map Prod.snd
  let h_alpha := m.alpha_encoder alpha_seq alpha_len
  let h_beta := m.beta_encoder beta_seq beta_len
  let h_tcr := matCat h_alpha h_beta
  let h_tcr := if conditional.isSome && m.cond_input then matCat h_tcr cond_emb_vec else h_tcr
  -- Encode RNA
  let h_rna := m.rna_encoder rna
  let h_rna := if conditional.isSome && m.cond_input then matCat h_rna cond_emb_vec else h_rna
  -- Predict latent space
  let z_rna_ := m.rna_vae_encoder h_rna
  let mu_rna := takeCols (shape1 z_rna_ / 2) z_rna_
  let logvar_rna := dropCols (shape1 z_rna_ / 2) z_rna_
  let z_rna := reparameterize m mu_rna logvar_rna eps_rna
  let z_tcr_ := m.tcr_vae_encoder h_tcr
  let mu_tcr := takeCols (shape1 z_tcr_ / 2) z_tcr_
  let logvar_tcr := dropCols (shape1 z_tcr_ / 2) z_tcr_
  let z_tcr := reparameterize m mu_tcr logvar_tcr eps_tcr
  let z := [z_rna, z_tcr]
  let mu := [mu_rna, mu_tcr]
  let logvar := [logvar_rna, logvar_tcr]
  -- Reconstruction
  let rna_pred := z.map (fun z_ =>
    let z_ := if conditional.isSome then matCat z_ cond_emb_vec else z_
    let f_rna := m.rna_vae_decoder z_
    m.rna_decoder f_rna)
  let tcr_pred := z.map (fun z_ =>
    let z_ := if conditional.isSome then matCat z_ cond_emb_vec else z_
    let f_tcr := m.tcr_vae_decoder z_
    let alpha_pred := m.alpha_decoder f_tcr alpha_seq
    let beta_pred := m.beta_decoder f_tcr beta_seq
    mat3Cat alpha_pred beta_pred)
  ⟨z, mu, logvar, rna_pred, tcr_pred⟩

/-- MoEModelTorch.get_latent_from_z: the fused latent 0.5 * (z[0] + z[1]). -/
def get_latent_from_z (z : List Mat) : Mat :=
  matSMul (1/2) (matAdd (z.getD 0 []) (z.getD 1 []))

/-! Specification-side decompositions of the forward pass, used to state the
origin of each output entry.  They repeat the per-modality pipelines of
`forward` as standalone functions so that a theorem can say which latent each
reconstruction is decoded from. -/

/-- Mean of the RNA-origin latent distribution (RNA pipeline of forward). -/
def rnaMu (m : MoENet) (rna : Mat) (conditional : Option (List ℕ)) : Mat :=
  let h_rna := m.rna_encoder rna
  let h_rna := if conditional.isSome && m.cond_input then matCat h_rna (condVec m conditional) else h_rna
  let z_rna_ := m.rna_vae_encoder h_rna
  takeCols (shape1 z_rna_ / 2) z_rna_

/-- Log-variance of the RNA-origin latent distribution. -/
def rnaLogvar (m : MoENet) (rna : Mat) (conditional : Option (List ℕ)) : Mat :=
  let h_rna := m.rna_encoder rna
  let h_rna := if conditional.isSome && m.cond_input then matCat h_rna (condVec m conditional) else h_rna
  let z_rna_ := m.rna_vae_encoder h_rna
  dropCols (shape1 z_rna_ / 2) z_rna_

/-- Mean of the TCR-origin latent distribution (TCR pipeline of forward). -/
def tcrMu (m : MoENet) (tcr : List (List ℕ)) (tcr_len : List (ℕ × ℕ))
    (conditional : Option (List ℕ)) : Mat :=
  let h_alpha := m.alpha_encoder (tcr.map (List.take (shape1 tcr / 2))) (tcr_len.map Prod.fst)
  let h_beta := m.beta_encoder (tcr.map (List.drop (shape1 tcr / 2))) (tcr_len.map Prod.snd)
  let h_tcr := matCat h_alpha h_beta
  let h_tcr := if conditional.isSome && m.cond_input then matCat h_tcr (condVec m conditional) else h_tcr
  let z_tcr_ := m.tcr_vae_encoder h_tcr
  takeCols (shape1 z_tcr_ / 2) z_tcr_

/-- Log-variance of the TCR-origin latent distribution. -/
def tcrLogvar (m : MoENet) (tcr : List (List ℕ)) (tcr_len : List (ℕ × ℕ))
    (conditional : Option (List ℕ)) : Mat :=
  let h_alpha := m.alpha_encoder (tcr.map (List.take (shape1 tcr / 2))) (tcr_len.map Prod.fst)
  let h_beta := m.beta_encoder (tcr.map (List.drop (shape1 tcr / 2))) (tcr_len.map Prod.snd)
  let h_tcr := matCat h_alpha h_beta
  let h_tcr := if conditional.isSome && m.cond_input then matCat h_tcr (condVec m conditional) else h_tcr
  let z_tcr_ := m.tcr_vae_encoder h_tcr
  dropCols (shape1 z_tcr_ / 2) z_tcr_

/-- RNA reconstruction decoded from one latent sample (body of the first
reconstruction loop of forward). -/
def rnaFromLatent (m : MoENet) (conditional : Option (List ℕ)) (z_ : Mat) : Mat :=
  let z_ := if conditional.isSome then matCat z_ (condVec m conditional) else z_
  m.rna_decoder (m.rna_vae_decoder z_)

/-- TCR reconstruction decoded from one latent sample (body of the second
reconstruction loop of forward). -/
def tcrFromLatent (m : MoENet) (tcr : List (List ℕ)) (conditional : Option (List ℕ))
    (z_ : Mat) : Mat3 :=
  let z_ := if conditional.isSome then matCat z_ (condVec m conditional) else z_
  let f_tcr := m.tcr_vae_decoder z_
  mat3Cat (m.alpha_decoder f_tcr (tcr.map (List.take (shape1 tcr / 2))))
    (m.beta_decoder f_tcr (tcr.map (List.drop (shape1 tcr / 2))))

/-! ## MoEModel loss orchestration (moe.py lines 189-210)

The loss functions `loss_function_rna/tcr/kld`, the weights and the KL
annealing schedule are attributes of VAEBaseModel (vae_base_model.py, outside
this repository slice), so they are opaque fields of `MoELoss`. -/

structure MoELoss where
  loss_function_rna : Mat → Mat → ℚ
  loss_function_tcr : Mat → List ℕ → ℚ
  loss_function_kld : Mat → Mat → ℚ
  loss_weights : List ℚ
  get_kl_annealing_factor : ℕ → ℚ

/-- Boolean column mask of torch.ones_like(tcr).bool() after the assignment
mask[:, [0, mask.shape[1] // 2]] = False: True everywhere except columns 0
and L / 2. -/
def tcrMaskRow (L : ℕ) : List Bool :=
  (List.range L).map (fun i => !(i == 0 || i == L / 2))

/-- Row-major boolean-mask selection tcr[mask].flatten() of the ground-truth
token tensor, with the mask of `tcrMaskRow` applied to every row. -/
def tcrMaskedFlat (tcr : List (List ℕ)) : List ℕ :=
  (tcr.map (fun row => ((tcrMaskRow (shape1 tcr)).zip row).filterMap
    (fun p => if p.1 then some p.2 else none))).flatten

/-- MoEModel.calculate_loss (moe.py lines 189-204).  Ground-truth tcr is the
[batch, seq] token tensor, tcr_pred the two [batch, seq-ish, vocab] logit
tensors; flatten(end_dim=1) of a logit tensor is List.flatten. -/
def calculate_loss (cfg : MoELoss) (rna_pred : List Mat) (rna : Mat)
    (tcr_pred : List Mat3) (tcr : List (List ℕ)) : ℚ × ℚ :=
  let rna_loss := (cfg.loss_function_rna (rna_pred.getD 0 []) rna +
    cfg.loss_function_rna (rna_pred.getD 1 []) rna) * (1/2 * cfg.loss_weights.getD 0 0)
  let tcr_loss :=
    if (shape1 (tcr_pred.getD 0 []) : ℤ) = (shape1 tcr : ℤ) - 2 then
      (cfg.loss_function_tcr (tcr_pred.getD 0 []).flatten (tcrMaskedFlat tcr) +
        cfg.loss_function_tcr (tcr_pred.getD 1 []).flatten (tcrMaskedFlat tcr)) *
        (1/2 * cfg.loss_weights.getD 1 0)
    else
      (cfg.loss_function_tcr (tcr_pred.getD 0 []).flatten tcr.flatten +
        cfg.loss_function_tcr (tcr_pred.getD 1 []).flatten tcr.flatten) *
        (1/2 * cfg.loss_weights.getD 1 0)
  (rna_loss, tcr_loss)

/-- MoEModel.calculate_kld_loss (moe.py lines 206-210). -/
def calculate_kld_loss (cfg : MoELoss) (mu logvar : List Mat) (epoch : ℕ) : ℚ × Mat :=
  let kld_loss := (cfg.loss_function_kld (mu.getD 0 []) (logvar.getD 0 []) +
    cfg.loss_function_kld (mu.getD 1 []) (logvar.getD 1 [])) *
    (1/2 * cfg.loss_weights.getD 2 0 * cfg.get_kl_annealing_factor epoch)
  (kld_loss, matSMul (1/2) (matAdd (mu.getD 0 []) (mu.getD 1 [])))

/-! Specification-side loss formulas.  These follow the words of the spec
sentence "average the two, multiply by 0.5 and the configured modality loss
weight" literally, to be compared with `calculate_loss` and
`calculate_kld_loss`. -/

/-- Claimed RNA loss: the average of the two reconstruction losses,
multiplied by 0.5 and by loss_weights[0]. -/
def rnaLossClaimed (cfg : MoELoss) (rna_pred : List Mat) (rna : Mat) : ℚ :=
  ((cfg.loss_function_rna (rna_pred.getD 0 []) rna +
    cfg.loss_function_rna (rna_pred.getD 1 []) rna) / 2) * (1/2) * cfg.loss_weights.getD 0 0

/-- Claimed KL loss: the average of the two per-modality KL terms, multiplied
by 0.5, by loss_weights[2] and by the annealing factor. -/
def kldLossClaimed (cfg : MoELoss) (mu logvar : List Mat) (epoch : ℕ) : ℚ :=
  ((cfg.loss_function_kld (mu.getD 0 []) (logvar.getD 0 []) +
    cfg.loss_function_kld (mu.getD 1 []) (logvar.getD 1 [])) / 2) *
    (1/2) * cfg.loss_weights.getD 2 0 * cfg.get_kl_annealing_factor epoch

/-- Flattened comparison target of the TCR loss: the masked ground truth in
the length-minus-2 branch, the full ground truth otherwise. -/
def tcrTarget (tcr_pred : List Mat3) (tcr : List (List ℕ)) : List ℕ :=
  if (shape1 (tcr_pred.getD 0 []) : ℤ) = (shape1 tcr : ℤ) - 2 then tcrMaskedFlat tcr
  else tcr.flatten

/-! ## Sequence codec: utils.aa_encoding (tcr_embedding/utils.py lines 8-68)

The AnnData container is embedded as association-list stores.  obs columns
hold per-row cells (strings, integers, id vectors or one-hot matrices), obsm
holds stacked matrices, and uns holds the vocabulary.  Python exceptions of
the function become values of `AAErr`. -/

inductive ObsVal where
  | str (s : List Char)
  | nat (n : ℕ)
  | ids (l : List ℕ)
  | ohe (m : List (List ℚ))
  deriving DecidableEq

inductive ObsmVal where
  | ids (m : List (List ℕ))
  | ohe (t : List (List (List ℚ)))
  deriving DecidableEq

structure Adata where
  obs : List (String × List ObsVal)
  obsm : List (String × ObsmVal)
  uns_aa_to_id : Option (List (Char × ℕ))
  deriving DecidableEq

/-- Write a column of an association-list store, replacing it if present. -/
def setAssoc (l : List (String × α)) (k : String) (v : α) : List (String × α) :=
  if l.any (fun p => p.1 == k) then l.map (fun p => bif p.1 == k then (k, v) else p)
  else l ++ [(k, v)]

/-- Pandas astype of a cell.  String and integer cells are the ones the
codec meets; the pandas repr of array-valued cells is not modelled (it is
never exercised by the repository, which only encodes string columns). -/
def cellToStr : ObsVal → List Char
  | .str s => s
  | .nat n => (toString n).toList
  | .ids _ => []
  | .ohe _ => []

/-- Sentinel wrapping of line 26: the string < + s + >. -/
def wrapSE (s : List Char) : List Char := '<' :: (s ++ ['>'])

/-- Pandas str.ljust with fill character _ : right-pad to width w, leaving
longer strings unchanged (truncated subtraction gives the same behavior). -/
def ljust (s : List Char) (w : ℕ) : List Char := s ++ List.replicate (w - s.length) '_'

/-- The pad argument of aa_encoding is either a Python int or a bool; the
source discriminates with type(pad) is int, then elif pad. -/
inductive PadArg where
  | int (n : ℕ)
  | bool (b : Bool)
  deriving DecidableEq

/-- Errors of aa_encoding: the AssertionError of line 23, a missing obs
column (pandas KeyError), or a vocabulary miss (dict KeyError, line 51). -/
inductive AAErr where
  | noOutputCol
  | missingCol (c : String)
  | lookup (c : Char)
  deriving DecidableEq

/-- Vocabulary construction of lines 46-48: sorted distinct observed
characters, ids assigned by enumeration order. -/
def buildAaToId (tokens : List (List Char)) : List (Char × ℕ) :=
  let unique_aa_tokens := List.insertionSort (· ≤ ·) (tokens.flatten).dedup
  unique_aa_tokens.enum.map (fun p => (p.2, p.1))

/-- Token-id conversion of line 51; a character outside the vocabulary is a
KeyError. -/
def tokenizeSeqs (v : List (Char × ℕ)) (seqs : List (List Char)) :
    Except AAErr (List (List ℕ)) :=
  seqs.mapM (fun (s : List Char) => s.mapM (fun c => match v.lookup c with
    | some i => Except.ok i
    | none => Except.error (AAErr.lookup c)))

/-- One-hot matrix of one token sequence (lines 55-58): a zero row of width
V per token, with entry token_id set to 1. -/
def oheOfSeq (V : ℕ) (ids : List ℕ) : List (List ℚ) :=
  ids.map (fun t => (List.range V).map (fun j => if j = t then (1 : ℚ) else 0))

/-- Padded sequence column of lines 25-40 (sentinel wrapping, pad-length
adjustment, and the three padding branches), as a function of the raw
string column. -/
def aaSequenceCol (seqs0 : List (List Char)) (pad : PadArg) (start_end_symbol : Bool) :
    List (List Char) :=
  let seqs := if start_end_symbol then seqs0.map wrapSE else seqs0
  let pad := if start_end_symbol then
    (match pad with | .int n => PadArg.int (n + 2) | p => p) else pad
  match pad with
  | .int n => seqs.map (fun s => ljust s n)
  | .bool b =>
    if b then
      let pad_len := (seqs.map List.length).foldr max 0
      seqs.map (fun s => ljust s pad_len)
    else seqs

/-- utils.aa_encoding.  The container transformation returns the new store;
raised exceptions are the error values of `AAErr`.  Maximum over an empty
length column (pandas NaN) is modelled as 0, an edge the repository never
hits. -/
def aa_encoding (adata : Adata) (read_col : String) (ohe_col label_col length_col : Option String)
    (pad : PadArg) (aa_to_id : Option (List (Char × ℕ))) (start_end_symbol : Bool) :
    Except AAErr Adata :=
  if label_col = none ∧ ohe_col = none then Except.error AAErr.noOutputCol
  else
    match adata.obs.lookup read_col with
    | none => Except.error (AAErr.missingCol read_col)
    | some cells =>
      let seqs0 := cells.map cellToStr
      let seqs := if start_end_symbol then seqs0.map wrapSE else seqs0
      let adata1 := if start_end_symbol then
        { adata with obs := setAssoc adata.obs read_col (seqs.map ObsVal.str) } else adata
      let adata2 := match length_col with
        | some lc =>
          -- Python truthiness: an empty column name skips the write
          if lc.length != 0 then
            { adata1 with obs := setAssoc adata1.obs lc (seqs.map (fun (s : List Char) => ObsVal.nat s.length)) }
          else adata1
        | none => adata1
      let sequence_col := aaSequenceCol seqs0 pad start_end_symbol
      let vocab := match aa_to_id with
        | some v => v
        | none => buildAaToId sequence_col
      match tokenizeSeqs vocab sequence_col with
      | .error e => Except.error e
      | .ok token_ids =>
        let adata3 := match ohe_col with
          | some oc =>
            let one_hot := token_ids.map (oheOfSeq vocab.length)
            { adata2 with obs := setAssoc adata2.obs oc (one_hot.map ObsVal.ohe),
                          obsm := setAssoc adata2.obsm oc (ObsmVal.ohe one_hot) }
          | none => adata2
        let adata4 := match label_col with
          | some lc =>
            { adata3 with obs := setAssoc adata3.obs lc (token_ids.map ObsVal.ids),
                          obsm := setAssoc adata3.obsm lc (ObsmVal.ids token_ids) }
          | none => adata3
        Except.ok { adata4 with uns_aa_to_id := some vocab }

/-! ## Reporting adapter (models/optimization/knn_prediction.py)

run_imputation_evaluation and the comet tracker live outside this repository
slice: the outcome of the evaluation call is the parameter of the adapter
(an exception value or a summary), and the logging loop only talks to the
external tracker, so it does not touch the returned value. -/

structure KnnSummary where
  weighted_avg_f1_score : ℚ
  deriving DecidableEq

structure EvalSummary where
  knn : KnnSummary
  deriving DecidableEq

/-- The comparison operator returned next to the score (operator.gt means
higher is better). -/
inductive CompareOp where
  | gt
  | lt
  deriving DecidableEq

/-- Exceptions the nearest-neighbor evaluation may raise; the bare except
clause of the source catches any of them. -/
inductive EvalErr where
  | tooFewSamplesPerClass
  | other (msg : String)
  deriving DecidableEq

/-- report_knn_prediction (knn_prediction.py lines 13-30): a failing
evaluation is caught and reported as no score (Python returns None); on
success the weighted-average F1 score is returned with operator.gt. -/
def report_knn_prediction (evalResult : Except EvalErr EvalSummary) :
    Option (ℚ × CompareOp) :=
  match evalResult with
  | .error _ => none
  | .ok summary => some (summary.knn.weighted_avg_f1_score, CompareOp.gt)

/-! ## Remaining specification-side definitions -/

/-- Two latent tensors of equal shape. -/
def sameShape (a b : Mat) : Prop := a.map List.length = b.map List.length

/-- Flattened ground truth with exactly the positions 0 and seq_len / 2 of
every row excluded, phrased by index filtering; compared against the
boolean-mask selection of the source. -/
def tcrExcludedFlat (tcr : List (List ℕ)) : List ℕ :=
  (tcr.map (fun row =>
    ((List.range (shape1 tcr)).filter
      (fun i => !(i == 0 || i == shape1 tcr / 2))).map (fun i => row.getD i 0))).flatten

/-- Concrete loss configuration used to evaluate the loss orchestrator on
closed inputs: every loss is a sum of the entries of its arguments, all
weights are 1 and the annealing factor is constantly 1. -/
def probeLoss : MoELoss where
  loss_function_rna := fun p x => p.flatten.sum + x.flatten.sum
  loss_function_tcr := fun p t => p.flatten.sum + (t.sum : ℚ)
  loss_function_kld := fun mu lv => mu.flatten.sum + lv.flatten.sum
  loss_weights := [1, 1, 1]
  get_kl_annealing_factor := fun _ => 1

/-! ## Theorems -/

/-- Claim C1: for every input batch (RNA, concatenated dual-chain TCR
tokens, per-chain lengths, optional conditional covariate) and every pair of
noise draws, MoEModelTorch.forward returns exactly two latent samples, two
means and two log-variances ordered [RNA-origin, TCR-origin], and exactly
two RNA and two TCR reconstructions where entry 0 of each list is decoded
from the RNA-origin latent z[0] and entry 1 from the TCR-origin latent z[1];
no separate joint or product latent is produced. -/
theorem moe_forward_two_experts (m : MoENet) (rna : Mat) (tcr : List (List ℕ))
    (tcr_len : List (ℕ × ℕ)) (conditional : Option (List ℕ)) (eps_rna eps_tcr : Mat) :
    let out := forward m rna tcr tcr_len conditional eps_rna eps_tcr
    out.z.length = 2 ∧ out.mu.length = 2 ∧ out.logvar.length = 2 ∧
    out.rna_pred.length = 2 ∧ out.tcr_pred.length = 2 ∧
    out.mu = [rnaMu m rna conditional, tcrMu m tcr tcr_len conditional] ∧
    out.logvar = [rnaLogvar m rna conditional, tcrLogvar m tcr tcr_len conditional] ∧
    out.z = [reparameterize m (rnaMu m rna conditional) (rnaLogvar m rna conditional) eps_rna,
      reparameterize m (tcrMu m tcr tcr_len conditional) (tcrLogvar m tcr tcr_len conditional) eps_tcr] ∧
    out.rna_pred = [rnaFromLatent m conditional (out.z.getD 0 []),
      rnaFromLatent m conditional (out.z.getD 1 [])] ∧
    out.tcr_pred = [tcrFromLatent m tcr conditional (out.z.getD 0 []),
      tcrFromLatent m tcr conditional (out.z.getD 1 [])] :=
  ⟨rfl, rfl, rfl, rfl, rfl, rfl, rfl, rfl, rfl, rfl⟩

/-- Claim C5: get_latent_from_z is the unweighted arithmetic mean
0.5 * (z[0] + z[1]) of the two per-modality latents, and fusing [A, B] is
the same as fusing [B, A] for equal-shaped latents. -/
theorem get_latent_from_z_symmetric (A B : Mat) (h : sameShape A B) :
    get_latent_from_z [A, B] = matSMul (1/2) (matAdd A B) ∧
    get_latent_from_z [A, B] = get_latent_from_z [B, A] := by
  refine ⟨rfl, ?_⟩
  have hadd : matAdd A B = matAdd B A :=
    List.zipWith_comm_of_comm _ (fun x y => List.zipWith_comm_of_comm _ add_comm x y) A B
  show matSMul (1/2) (matAdd A B) = matSMul (1/2) (matAdd B A)
  rw [hadd]

/-- Witness for C5 at a concrete pair of one-row latents. -/
theorem get_latent_from_z_symmetric_witness :
    get_latent_from_z [[[1, 2]], [[3, 4]]] = matSMul (1/2) (matAdd [[(1 : ℚ), 2]] [[3, 4]]) ∧
    get_latent_from_z [[[1, 2]], [[3, 4]]] = get_latent_from_z [[[3, 4]], [[(1 : ℚ), 2]]] :=
  get_latent_from_z_symmetric [[1, 2]] [[3, 4]] rfl

/-- Claim C9: report_knn_prediction maps every exception of the
nearest-neighbor evaluation to the no-score value none, and maps a
successful evaluation to the pair of the weighted-average F1 score and the
higher-is-better operator. -/
theorem report_knn_prediction_policy (e : EvalErr) (s : EvalSummary) :
    report_knn_prediction (Except.error e) = none ∧
    report_knn_prediction (Except.ok s) =
      some (s.knn.weighted_avg_f1_score, CompareOp.gt) :=
  ⟨rfl, rfl⟩

/-- Counterexample to claim C3 as literally stated: with unit losses and
unit weights the RNA loss of the code is 1, while the average of the two
reconstruction losses multiplied by 0.5 and by the weight is 1/2.  The code
multiplies the SUM of the two losses by 0.5 (which is the averaging) and the
weight; an additional 0.5 on top of the average is not applied. -/
theorem calculate_loss_rna_not_half_average :
    ¬ ((calculate_loss probeLoss [[[1]], [[1]]] [[0]] [] []).1 =
      rnaLossClaimed probeLoss [[[1]], [[1]]] [[0]]) := by
  simp only [calculate_loss, rnaLossClaimed, probeLoss, shape1]
  norm_num

/-- Claim C3 (amended): for each modality, calculate_loss returns the average
of the two reconstruction losses (the sum multiplied by 0.5) multiplied by
the configured modality loss weight — loss_weights[0] for RNA and
loss_weights[1] for TCR, the TCR losses being taken against the
branch-dependent flattened target. -/
theorem calculate_loss_average_times_weight (cfg : MoELoss) (rna_pred : List Mat)
    (rna : Mat) (tcr_pred : List Mat3) (tcr : List (List ℕ)) :
    (calculate_loss cfg rna_pred rna tcr_pred tcr).1 =
      ((cfg.loss_function_rna (rna_pred.getD 0 []) rna +
        cfg.loss_function_rna (rna_pred.getD 1 []) rna) / 2) * cfg.loss_weights.getD 0 0 ∧
    (calculate_loss cfg rna_pred rna tcr_pred tcr).2 =
      ((cfg.loss_function_tcr (tcr_pred.getD 0 []).flatten (tcrTarget tcr_pred tcr) +
        cfg.loss_function_tcr (tcr_pred.getD 1 []).flatten (tcrTarget tcr_pred tcr)) / 2) *
        cfg.loss_weights.getD 1 0 := by
  unfold calculate_loss tcrTarget
  constructor
  · ring
  · by_cases hc : (shape1 (tcr_pred.getD 0 []) : ℤ) = (shape1 tcr : ℤ) - 2
    · simp only [if_pos hc]
      ring
    · simp only [if_neg hc]
      ring

/-- Counterexample to claim C4 as literally stated: with KL terms 2 and 0,
unit weight and unit annealing factor the code returns 1, while the average
of the two KL terms multiplied by 0.5, the weight and the annealing factor
is 1/2. -/
theorem calculate_kld_loss_not_half_average :
    ¬ ((calculate_kld_loss probeLoss [[[2]], [[0]]] [[[0]], [[0]]] 0).1 =
      kldLossClaimed probeLoss [[[2]], [[0]]] [[[0]], [[0]]] 0) := by
  simp only [calculate_kld_loss, kldLossClaimed, probeLoss]
  norm_num

/-- Claim C4 (amended): calculate_kld_loss returns the average of the two
per-modality KL terms (the sum multiplied by 0.5) multiplied by the KL
weight loss_weights[2] and the epoch-dependent annealing factor, together
with the fused latent mean 0.5 * (mu[0] + mu[1]). -/
theorem calculate_kld_loss_formula (cfg : MoELoss) (mu logvar : List Mat) (epoch : ℕ) :
    (calculate_kld_loss cfg mu logvar epoch).1 =
      ((cfg.loss_function_kld (mu.getD 0 []) (logvar.getD 0 []) +
        cfg.loss_function_kld (mu.getD 1 []) (logvar.getD 1 [])) / 2) *
        cfg.loss_weights.getD 2 0 * cfg.get_kl_annealing_factor epoch ∧
    (calculate_kld_loss cfg mu logvar epoch).2 =
      matSMul (1/2) (matAdd (mu.getD 0 []) (mu.getD 1 [])) := by
  constructor
  · show (cfg.loss_function_kld (mu.getD 0 []) (logvar.getD 0 []) +
      cfg.loss_function_kld (mu.getD 1 []) (logvar.getD 1 [])) *
      (1/2 * cfg.loss_weights.getD 2 0 * cfg.get_kl_annealing_factor epoch) = _
    ring
  · rfl

/-- Helper: boolean-mask selection over a row equals selection of the
index-filtered positions. -/
theorem maskSelect_eq_filter {α : Type} (p : ℕ → Bool) (row : List α) (d : α) :
    (((List.range row.length).map p).zip row).filterMap (fun q => if q.1 then some q.2 else none) =
    ((List.range row.length).filter p).map (fun i => row.getD i d) := by
  induction row generalizing p with
  | nil => rfl
  | cons a rest ih =>
    have h1 : List.range (a :: rest).length = 0 :: (List.range rest.length).map Nat.succ := by
      simpa using List.range_succ_eq_map rest.length
    rw [h1]
    simp only [List.map_cons, List.map_map, List.zip_cons_cons, List.filterMap_cons,
      List.filter_cons]
    have ih' := ih (fun i => p (i + 1))
    have hcomp : (p ∘ Nat.succ) = (fun i => p (i + 1)) := funext (fun i => rfl)
    cases hp : p 0 with
    | false =>
      simp only [hp, List.filter_map, hcomp, ih', List.map_map]
      simp [List.map_map, Function.comp, List.getD_cons_succ]
    | true =>
      simp only [hp, List.filter_map, hcomp, ih', List.map_map]
      simp [List.map_map, Function.comp, List.getD_cons_succ, List.getD_cons_zero]

/-- Helper: on a rectangular token tensor the boolean-mask selection of the
source equals the explicit exclusion of positions 0 and seq_len / 2. -/
theorem tcrMaskedFlat_eq_excluded (tcr : List (List ℕ))
    (hrect : ∀ row ∈ tcr, row.length = shape1 tcr) :
    tcrMaskedFlat tcr = tcrExcludedFlat tcr := by
  unfold tcrMaskedFlat tcrExcludedFlat tcrMaskRow
  congr 1
  apply List.map_congr_left
  intro row hrow
  rw [← hrect row hrow]
  exact maskSelect_eq_filter _ row 0

/-- Claim C2: whenever the TCR reconstruction sequence length equals the
ground-truth sequence length minus 2, calculate_loss computes the TCR loss
against the ground truth with exactly the positions 0 and seq_len / 2 (the
start-token position of each chain half) excluded via the boolean mask
before flattening; whenever the lengths are equal, the full unmasked
flattened sequence is compared. -/
theorem calculate_loss_tcr_masking (cfg : MoELoss) (rna_pred : List Mat) (rna : Mat)
    (tcr_pred : List Mat3) (tcr : List (List ℕ))
    (hrect : ∀ row ∈ tcr, row.length = shape1 tcr) :
    ((shape1 (tcr_pred.getD 0 []) : ℤ) = (shape1 tcr : ℤ) - 2 →
      (calculate_loss cfg rna_pred rna tcr_pred tcr).2 =
        (cfg.loss_function_tcr (tcr_pred.getD 0 []).flatten (tcrExcludedFlat tcr) +
          cfg.loss_function_tcr (tcr_pred.getD 1 []).flatten (tcrExcludedFlat tcr)) *
          (1/2 * cfg.loss_weights.getD 1 0)) ∧
    (shape1 (tcr_pred.getD 0 []) = shape1 tcr →
      (calculate_loss cfg rna_pred rna tcr_pred tcr).2 =
        (cfg.loss_function_tcr (tcr_pred.getD 0 []).flatten tcr.flatten +
          cfg.loss_function_tcr (tcr_pred.getD 1 []).flatten tcr.flatten) *
          (1/2 * cfg.loss_weights.getD 1 0)) := by
  constructor
  · intro hc
    simp only [calculate_loss]
    rw [if_pos hc, tcrMaskedFlat_eq_excluded tcr hrect]
  · intro he
    simp only [calculate_loss]
    rw [if_neg (by rw [he]; omega)]

/-- Witness for C2 on a one-row batch of length 4 with reconstruction
length 2. -/
theorem calculate_loss_tcr_masking_witness :
    (calculate_loss probeLoss [] [] [[[[1,2],[3,4]]], [[[5,6],[7,8]]]] [[5,6,7,8]]).2 =
      (probeLoss.loss_function_tcr ([[[[(1:ℚ),2],[3,4]]], [[[5,6],[7,8]]]].getD 0 []).flatten
          (tcrExcludedFlat [[5,6,7,8]]) +
        probeLoss.loss_function_tcr ([[[[(1:ℚ),2],[3,4]]], [[[5,6],[7,8]]]].getD 1 []).flatten
          (tcrExcludedFlat [[5,6,7,8]])) *
        (1/2 * probeLoss.loss_weights.getD 1 0) :=
  (calculate_loss_tcr_masking probeLoss [] [] [[[[1,2],[3,4]]], [[[5,6],[7,8]]]] [[5,6,7,8]]
    (by decide)).1 (by decide)

/-- Helper: the length of a right-padded string is the maximum of its length
and the pad width. -/
theorem ljust_length (s : List Char) (w : ℕ) : (ljust s w).length = max s.length w := by
  simp [ljust]
  omega

/-- Helper: every member of a list of naturals is bounded by the folded
maximum. -/
theorem mem_le_foldr_max (l : List ℕ) (x : ℕ) (hx : x ∈ l) : x ≤ l.foldr max 0 := by
  induction l with
  | nil => cases hx
  | cons a t ih =>
    rcases List.mem_cons.mp hx with h | h
    · subst h
      exact le_max_left _ _
    · exact le_trans (ih h) (le_max_right _ _)

/-- Claim C6: with sentinel insertion enabled, an explicit integer pad
length n right-pads every sequence with the pad character to effective
length n + 2 (exactly n + 2 whenever the raw sequence fits); pad = True
right-pads to the maximum observed sequence length of the encoded batch;
a falsy pad leaves the (sentinel-wrapped) sequences unpadded. -/
theorem aa_encoding_padding (seqs0 : List (List Char)) (n : ℕ) :
    (aaSequenceCol seqs0 (PadArg.int n) true =
      (seqs0.map wrapSE).map (fun s => ljust s (n + 2)) ∧
      ∀ s ∈ seqs0, s.length ≤ n → (ljust (wrapSE s) (n + 2)).length = n + 2) ∧
    (aaSequenceCol seqs0 (PadArg.bool true) true =
      (seqs0.map wrapSE).map
        (fun s => ljust s (((seqs0.map wrapSE).map List.length).foldr max 0)) ∧
      ∀ s ∈ aaSequenceCol seqs0 (PadArg.bool true) true,
        s.length = ((seqs0.map wrapSE).map List.length).foldr max 0) ∧
    aaSequenceCol seqs0 (PadArg.bool false) true = seqs0.map wrapSE := by
  refine ⟨⟨rfl, ?_⟩, ⟨rfl, ?_⟩, rfl⟩
  · intro s _ hlen
    have hw : (wrapSE s).length = s.length + 2 := by simp [wrapSE]
    rw [ljust_length, hw]
    omega
  · intro s hs
    have hs' : s ∈ (seqs0.map wrapSE).map
        (fun t => ljust t (((seqs0.map wrapSE).map List.length).foldr max 0)) := hs
    obtain ⟨t, ht, rfl⟩ := List.mem_map.mp hs'
    have htM : t.length ≤ ((seqs0.map wrapSE).map List.length).foldr max 0 :=
      mem_le_foldr_max _ _ (List.mem_map_of_mem _ ht)
    rw [ljust_length]
    omega

/-- Witness for C6 at a two-character sequence and pad length 4. -/
theorem aa_encoding_padding_witness :
    aaSequenceCol [['A', 'B']] (PadArg.int 4) true =
      ([['A', 'B']].map wrapSE).map (fun s => ljust s 6) ∧
    (ljust (wrapSE ['A', 'B']) 6).length = 6 :=
  ⟨(aa_encoding_padding [['A', 'B']] 4).1.1,
    (aa_encoding_padding [['A', 'B']] 4).1.2 ['A', 'B'] (by decide) (by decide)⟩

/-- Claim C7: the vocabulary built by aa_encoding when none is supplied
consists of the distinct observed characters in strictly sorted order with
ids 0, 1, 2, ... assigned in that order; the construction is a pure function
of the corpus (so encoding the same corpus twice yields the identical
mapping), and every successful aa_encoding call without a supplied
vocabulary stores exactly this mapping. -/
theorem buildAaToId_sorted_enumeration (tokens tokens2 : List (List Char)) :
    ((buildAaToId tokens).map Prod.fst).Sorted (· < ·) ∧
    (buildAaToId tokens).map Prod.snd = List.range (buildAaToId tokens).length ∧
    (∀ c : Char, c ∈ (buildAaToId tokens).map Prod.fst ↔ c ∈ tokens.flatten) ∧
    (tokens = tokens2 → buildAaToId tokens = buildAaToId tokens2) ∧
    (∀ (adata : Adata) (read_col : String) (ohe_col label_col length_col : Option String)
      (pad : PadArg) (se : Bool) (a' : Adata),
      aa_encoding adata read_col ohe_col label_col length_col pad none se = Except.ok a' →
      a'.uns_aa_to_id = some (buildAaToId
        (aaSequenceCol (((adata.obs.lookup read_col).getD []).map cellToStr) pad se))) := by
  have hfst : (buildAaToId tokens).map Prod.fst =
      List.insertionSort (· ≤ ·) (tokens.flatten).dedup := by
    simp [buildAaToId, List.map_map]
    exact List.enum_map_snd _
  have hperm : (List.insertionSort (· ≤ ·) (tokens.flatten).dedup).Perm
      (tokens.flatten).dedup := List.perm_insertionSort _ _
  refine ⟨?_, ?_, ?_, fun h => by rw [h], ?_⟩
  · rw [hfst]
    have hsorted : (List.insertionSort (· ≤ ·) (tokens.flatten).dedup).Sorted (· ≤ ·) :=
      List.sorted_insertionSort _ _
    have hnd : (List.insertionSort (· ≤ ·) (tokens.flatten).dedup).Nodup :=
      hperm.symm.nodup (List.nodup_dedup _)
    exact hsorted.lt_of_le hnd
  · show (List.map (fun p => (p.2, p.1))
        (List.insertionSort (· ≤ ·) (tokens.flatten).dedup).enum).map Prod.snd = _
    rw [List.map_map]
    have h2 : (Prod.snd ∘ fun p : ℕ × Char => (p.2, p.1)) = Prod.fst := rfl
    rw [h2, List.enum_map_fst]
    simp [buildAaToId]
  · intro c
    rw [hfst, hperm.mem_iff, List.mem_dedup]
  · intro adata read_col ohe_col label_col length_col pad se a' h
    unfold aa_encoding at h
    split at h
    · cases h
    · split at h
      · cases h
      next cells hlk =>
        rw [hlk]
        dsimp only at h ⊢
        split at h
        · cases h
        next token_ids htk =>
          injection h with h2
          subst h2
          rfl

/-- Witness for C7: determinism and the stored vocabulary of a concrete
successful encoding call. -/
theorem buildAaToId_sorted_enumeration_witness :
    buildAaToId [['B', 'A']] = buildAaToId [['B', 'A']] ∧
    (⟨[("s", [ObsVal.str ['B', 'A']]), ("lab", [ObsVal.ids [1, 0]])],
      [("lab", ObsmVal.ids [[1, 0]])], some [('A', 0), ('B', 1)]⟩ : Adata).uns_aa_to_id =
      some (buildAaToId (aaSequenceCol
        ((((⟨[("s", [ObsVal.str ['B', 'A']])], [], none⟩ : Adata).obs.lookup "s").getD []).map
          cellToStr) (PadArg.bool false) false)) :=
  ⟨(buildAaToId_sorted_enumeration [['B', 'A']] [['B', 'A']]).2.2.2.1 rfl,
    (buildAaToId_sorted_enumeration [['B', 'A']] [['B', 'A']]).2.2.2.2
      ⟨[("s", [ObsVal.str ['B', 'A']])], [], none⟩ "s" none (some "lab") none
      (PadArg.bool false) false _ (by rfl)⟩

/-- Helper: a monadic map over Except never produces an error value that
the element function cannot produce. -/
theorem mapM_ne_noOutputCol {α β : Type} (f : α → Except AAErr β)
    (hf : ∀ a, f a ≠ Except.error AAErr.noOutputCol) (l : List α) :
    l.mapM f ≠ Except.error AAErr.noOutputCol := by
  induction l with
  | nil => simp [List.mapM_nil, pure, Except.pure, List.mapM.loop]
  | cons a t ih =>
    rw [List.mapM_cons]
    cases hfa : f a with
    | error e =>
      simp only [hfa, bind, Except.bind]
      intro hcontra
      exact hf a (by rw [hfa, show e = AAErr.noOutputCol from (Except.error.inj hcontra)])
    | ok b =>
      simp only [hfa, bind, Except.bind]
      cases hmt : t.mapM f with
      | error e =>
        intro hcontra
        exact ih (by rw [hmt, show e = AAErr.noOutputCol from (Except.error.inj hcontra)])
      | ok bs => simp [pure, Except.pure]

/-- Helper: tokenization only fails with vocabulary-lookup errors. -/
theorem tokenizeSeqs_ne_noOutputCol (v : List (Char × ℕ)) (seqs : List (List Char)) :
    tokenizeSeqs v seqs ≠ Except.error AAErr.noOutputCol := by
  unfold tokenizeSeqs
  apply mapM_ne_noOutputCol
  intro s
  apply mapM_ne_noOutputCol
  intro c
  cases hv : v.lookup c <;> simp [hv]

/-- Claim C8: aa_encoding raises its configuration error exactly when
neither output column is requested — the guard fires first thing (the error
value carries no updated container), and when at least one output column is
given this error is never produced. -/
theorem aa_encoding_requires_output (adata : Adata) (read_col : String)
    (ohe_col label_col length_col : Option String) (pad : PadArg)
    (aa_to_id : Option (List (Char × ℕ))) (se : Bool) :
    (label_col = none → ohe_col = none →
      aa_encoding adata read_col ohe_col label_col length_col pad aa_to_id se =
        Except.error AAErr.noOutputCol) ∧
    (label_col ≠ none ∨ ohe_col ≠ none →
      aa_encoding adata read_col ohe_col label_col length_col pad aa_to_id se ≠
        Except.error AAErr.noOutputCol) := by
  constructor
  · intro h1 h2
    unfold aa_encoding
    rw [if_pos ⟨h1, h2⟩]
  · intro hor
    unfold aa_encoding
    rw [if_neg (by tauto)]
    split
    · simp
    next cells hlk =>
      dsimp only
      cases htk : tokenizeSeqs
          (match aa_to_id with
            | some v => v
            | none => buildAaToId (aaSequenceCol (cells.map cellToStr) pad se))
          (aaSequenceCol (cells.map cellToStr) pad se) with
      | error e =>
        dsimp only
        intro hc
        exact tokenizeSeqs_ne_noOutputCol _ _ (by rw [htk, Except.error.inj hc])
      | ok tk =>
        dsimp only
        simp

/-- Witness for C8 on an empty container with no output columns. -/
theorem aa_encoding_requires_output_witness :
    aa_encoding ⟨[], [], none⟩ "x" none none none (PadArg.bool false) none false =
      Except.error AAErr.noOutputCol :=
  (aa_encoding_requires_output ⟨[], [], none⟩ "x" none none none (PadArg.bool false)
    none false).1 rfl rfl

/-- Helper: looking up the written key after an in-place column replace. -/
theorem lookup_map_replace_self {α : Type} (l : List (String × α)) (k : String) (v : α)
    (h : l.any (fun p => p.1 == k) = true) :
    (l.map (fun p => bif p.1 == k then (k, v) else p)).lookup k = some v := by
  induction l with
  | nil => cases h
  | cons a t ih =>
    obtain ⟨a1, a2⟩ := a
    simp only [List.any_cons, Bool.or_eq_true] at h
    by_cases ha : a1 = k
    · subst ha
      simp [List.lookup]
    · have ha' : (a1 == k) = false := by simpa using ha
      have hk : (k == a1) = false := by simpa using Ne.symm ha
      have h' : t.any (fun p => p.1 == k) = true := by
        rcases h with h | h
        · rw [ha'] at h
          cases h
        · exact h
      simp only [List.map_cons, ha', cond_false, List.lookup, hk]
      exact ih h'

/-- Helper: looking up the written key after appending a fresh column. -/
theorem lookup_append_single_self {α : Type} (l : List (String × α)) (k : String) (v : α)
    (h : l.any (fun p => p.1 == k) = false) :
    (l ++ [(k, v)]).lookup k = some v := by
  induction l with
  | nil => simp [List.lookup]
  | cons a t ih =>
    obtain ⟨a1, a2⟩ := a
    simp only [List.any_cons, Bool.or_eq_false_iff] at h
    have hk : (k == a1) = false := by
      have : ¬ (a1 = k) := by simpa using h.1
      simpa using Ne.symm this
    simp only [List.cons_append, List.lookup, hk]
    exact ih h.2

/-- Helper: an in-place column replace leaves other lookups unchanged. -/
theorem lookup_map_replace_ne {α : Type} (l : List (String × α)) (k k' : String) (v : α)
    (h : k' ≠ k) :
    (l.map (fun p => bif p.1 == k then (k, v) else p)).lookup k' = l.lookup k' := by
  induction l with
  | nil => rfl
  | cons a t ih =>
    obtain ⟨a1, a2⟩ := a
    by_cases ha : a1 = k
    · subst ha
      have hk : (k' == a1) = false := by simpa using h
      simp only [List.map_cons, beq_self_eq_true, cond_true, List.lookup, hk]
      exact ih
    · have ha' : (a1 == k) = false := by simpa using ha
      simp only [List.map_cons, ha', cond_false, List.lookup]
      cases hkk : (k' == a1) <;> simp [hkk, ih]
  
/-- Helper: appending a fresh column leaves other lookups unchanged. -/
theorem lookup_append_single_ne {α : Type} (l : List (String × α)) (k k' : String) (v : α)
    (h : k' ≠ k) :
    (l ++ [(k, v)]).lookup k' = l.lookup k' := by
  induction l with
  | nil =>
    have hk : (k' == k) = false := by simpa using h
    simp [List.lookup, hk]
  | cons a t ih =>
    obtain ⟨a1, a2⟩ := a
    simp only [List.cons_append, List.lookup]
    cases hkk : (k' == a1) <;> simp [hkk, ih]

/-- Helper: a column write is observable under its own key. -/
theorem lookup_setAssoc_self {α : Type} (l : List (String × α)) (k : String) (v : α) :
    (setAssoc l k v).lookup k = some v := by
  unfold setAssoc
  by_cases h : l.any (fun p => p.1 == k) = true
  · rw [if_pos h]
    exact lookup_map_replace_self l k v h
  · rw [if_neg h]
    exact lookup_append_single_self l k v (Bool.not_eq_true _ ▸ Bool.of_not_eq_true h)

/-- Helper: a column write does not touch other keys. -/
theorem lookup_setAssoc_ne {α : Type} (l : List (String × α)) (k k' : String) (v : α)
    (h : k' ≠ k) : (setAssoc l k v).lookup k' = l.lookup k' := by
  unfold setAssoc
  by_cases hc : l.any (fun p => p.1 == k) = true
  · rw [if_pos hc]
    exact lookup_map_replace_ne l k k' v h
  · rw [if_neg hc]
    exact lookup_append_single_ne l k k' v h

/-- Helper: the observable obs columns of a successful aa_encoding call with
sentinels enabled, a label column and a length column: the read column now
holds the sentinel-wrapped strings and the length column the original
lengths plus two. -/
theorem aa_encoding_ok_reads (adata : Adata) (read_col lab lenc : String) (pad : PadArg)
    (aa_to_id : Option (List (Char × ℕ))) (cells : List ObsVal) (a' : Adata)
    (hlk : adata.obs.lookup read_col = some cells)
    (hrl : read_col ≠ lab) (hrlen : read_col ≠ lenc) (hll : lenc ≠ lab)
    (hlenc : lenc.length ≠ 0)
    (h : aa_encoding adata read_col none (some lab) (some lenc) pad aa_to_id true =
      Except.ok a') :
    a'.obs.lookup read_col =
      some ((cells.map cellToStr).map (fun s => ObsVal.str (wrapSE s))) ∧
    a'.obs.lookup lenc =
      some ((cells.map cellToStr).map (fun s => ObsVal.nat (s.length + 2))) := by
  unfold aa_encoding at h
  rw [if_neg (by simp)] at h
  rw [hlk] at h
  dsimp only at h
  have hl2 : (lenc.length != 0) = true := by simpa using hlenc
  simp only [hl2, if_true] at h
  split at h
  · cases h
  next token_ids htk =>
    injection h with h2
    subst h2
    dsimp only
    constructor
    · rw [lookup_setAssoc_ne _ _ _ _ hrl, lookup_setAssoc_ne _ _ _ _ hrlen,
        lookup_setAssoc_self]
      simp [List.map_map]
    · rw [lookup_setAssoc_ne _ _ _ _ (Ne.symm (Ne.symm hll)), lookup_setAssoc_self]
      congr 1
      simp only [List.map_map]
      apply List.map_congr_left
      intro c _
      show ObsVal.nat (wrapSE (cellToStr c)).length = ObsVal.nat ((cellToStr c).length + 2)
      exact congrArg ObsVal.nat (by simp [wrapSE])

/-- Claim C10: with start_end_symbol enabled, aa_encoding overwrites the
input column with the sentinel-wrapped strings, records in the length column
the original length plus 2, and a second call on the resulting container
wraps sentinels around the already-wrapped strings; wrapping is never
idempotent. -/
theorem aa_encoding_sentinel_frame (adata : Adata) (read_col lab lenc : String)
    (pad : PadArg) (aa_to_id : Option (List (Char × ℕ))) (cells : List ObsVal) (a' : Adata)
    (hlk : adata.obs.lookup read_col = some cells)
    (hrl : read_col ≠ lab) (hrlen : read_col ≠ lenc) (hll : lenc ≠ lab)
    (hlenc : lenc.length ≠ 0)
    (h : aa_encoding adata read_col none (some lab) (some lenc) pad aa_to_id true =
      Except.ok a') :
    a'.obs.lookup read_col =
      some ((cells.map cellToStr).map (fun s => ObsVal.str (wrapSE s))) ∧
    a'.obs.lookup lenc =
      some ((cells.map cellToStr).map (fun s => ObsVal.nat (s.length + 2))) ∧
    (∀ a'' : Adata,
      aa_encoding a' read_col none (some lab) (some lenc) pad aa_to_id true =
        Except.ok a'' →
      a''.obs.lookup read_col =
        some ((cells.map cellToStr).map (fun s => ObsVal.str (wrapSE (wrapSE s))))) ∧
    (∀ s : List Char, wrapSE (wrapSE s) ≠ wrapSE s) := by
  obtain ⟨h1, h2⟩ := aa_encoding_ok_reads adata read_col lab lenc pad aa_to_id cells a'
    hlk hrl hrlen hll hlenc h
  refine ⟨h1, h2, ?_, ?_⟩
  · intro a'' h''
    have h3 := (aa_encoding_ok_reads a' read_col lab lenc pad aa_to_id _ a''
      h1 hrl hrlen hll hlenc h'').1
    rw [h3]
    congr 1
    simp only [List.map_map]
    apply List.map_congr_left
    intro c _
    rfl
  · intro s hcontra
    have hlen := congrArg List.length hcontra
    simp only [wrapSE, List.length_cons, List.length_append] at hlen
    omega


/-- Witness for C10: both encoding passes evaluated on a one-cell container
holding the string A. -/
theorem aa_encoding_sentinel_frame_witness :
    (⟨[("s", [ObsVal.str ['<', 'A', '>']]), ("len", [ObsVal.nat 3]),
        ("lab", [ObsVal.ids [0, 2, 1]])], [("lab", ObsmVal.ids [[0, 2, 1]])],
        some [('<', 0), ('>', 1), ('A', 2)]⟩ : Adata).obs.lookup "s" =
      some (([ObsVal.str ['A']].map cellToStr).map (fun s => ObsVal.str (wrapSE s))) ∧
    (⟨[("s", [ObsVal.str ['<', '<', 'A', '>', '>']]), ("len", [ObsVal.nat 5]),
        ("lab", [ObsVal.ids [0, 0, 2, 1, 1]])], [("lab", ObsmVal.ids [[0, 0, 2, 1, 1]])],
        some [('<', 0), ('>', 1), ('A', 2)]⟩ : Adata).obs.lookup "s" =
      some (([ObsVal.str ['A']].map cellToStr).map (fun s => ObsVal.str (wrapSE (wrapSE s)))) := by
  have h := aa_encoding_sentinel_frame ⟨[("s", [ObsVal.str ['A']])], [], none⟩ "s" "lab" "len"
    (PadArg.bool false) none [ObsVal.str ['A']]
    ⟨[("s", [ObsVal.str ['<', 'A', '>']]), ("len", [ObsVal.nat 3]),
      ("lab", [ObsVal.ids [0, 2, 1]])], [("lab", ObsmVal.ids [[0, 2, 1]])],
      some [('<', 0), ('>', 1), ('A', 2)]⟩
    rfl (by decide) (by decide) (by decide) (by decide) (by rfl)
  exact ⟨h.1, h.2.2.1 _ (by rfl)⟩

end MvTCR
